import Mathlib

/-!
Verification development for the UDS (ISO 14229) diagnostic transaction
engine of the vci::uds subsystem (vci_uds_transaction.cpp and
vci_uds_service.cpp).

The transaction state machine, the service orchestration, the worker
pipelines, the security-access sequence and the keep-alive interaction
are embedded shallowly: the callback-driven C++ code becomes pure
functions over explicit state, time is a discrete millisecond clock, the
frame provider becomes an explicit list of timed frame arrivals, and the
atomic abort flag becomes the time from which it reads true.

The provider polling of the C++ code (10 ms chunks inside
Transaction::waitForFrame) is idealized to instantaneous delivery: a
frame arriving at time t inside the active window is returned at time t,
and the abort flag set at time a is observed at time a.  The claims
under study keep comfortable margins from those quantization boundaries.

Components whose sources are not available (the ISO-TP frame codec, the
Segmenter and the Reassembler, all referenced from the two available
translation units) are modelled from the specification; each such
definition is marked in its doc comment.
-/

namespace VciUds

/-- A raw CAN frame: identifier plus data bytes (FkVciCanDataType). -/
structure CanFrame where
  canId : Nat
  data : List Nat
deriving DecidableEq

/-- CAN bus flavor (VCI_UDS_CAN_CLASSIC vs CAN FD). -/
inductive CanType
  | classic
  | fd
deriving DecidableEq

/-- Flow-control status nibble (UDS_TP_FLOW_STATUS_*). -/
inductive FlowStatus
  | continueToSend
  | waitStatus
  | overflow
deriving DecidableEq

/-- A decoded ISO-TP protocol frame (UdsTp_Frame). -/
inductive UdsTpFrame
  | singleFrame (payload : List Nat)
  | firstFrame (totalSize : Nat) (leadBytes : List Nat)
  | consecutiveFrame (sn : Nat) (chunk : List Nat)
  | flowControl (status : FlowStatus) (blockSize : Nat) (separationTime : Nat)
deriving DecidableEq

/-- Result codes surfaced to callers (VCI_UDS_RESULT_*). -/
inductive ResultCode
  | ok
  | internalError
  | invalidParam
  | sendFailed
  | timeoutBs
  | timeoutCr
  | timeoutA
  | timeoutP2Star
  | fcOverflow
  | sequenceError
  | unexpectedFrame
  | payloadTooLarge
  | negativeResponse
  | nrc78LimitExceeded
  | aborted
  | queueFull
  | noResponseInQueue
  | securityInvalidSeed
  | securityConfigFailed
  | configFailed
deriving DecidableEq

/-- Timing and flow-control configuration (tp_config of UdsSessionContext). -/
structure TpConfig where
  n_as_timeout : Nat
  n_bs_timeout : Nat
  n_cr_timeout : Nat
  n_ar_timeout : Nat
  block_size : Nat
  st_min : Nat
  max_nrc78_count : Nat
deriving DecidableEq

/-- Per-transaction immutable snapshot of the session context. -/
structure UdsSessionContext where
  request_id : Nat
  response_id : Nat
  can_type : CanType
  padding_target_size : Nat
  padding_fill_byte : Nat
  tp_config : TpConfig
deriving DecidableEq

/-- Outcome of Transaction::execute (TransactionResult). -/
structure TransactionResult where
  success : Bool
  result_code : ResultCode
  response_payload : List Nat
deriving DecidableEq

/-- Modelled from the spec: FrameCodec.parse (spec 4.1); the codec source
(vci_uds_tp_utils) is not under src/.  Classic-CAN PCI forms: nibble 0 =
Single Frame with 4-bit length, nibble 1 = First Frame with 12-bit
length, nibble 2 = Consecutive Frame with 4-bit sequence number, nibble
3 = Flow Control with status nibble, block-size byte and STmin byte.
Unrecognized PCI or a length/DLC mismatch yields none. -/
def parseFrame (f : CanFrame) : Option UdsTpFrame :=
  match f.data with
  | [] => none
  | b0 :: rest =>
    if b0 / 16 = 0 then
      let len := b0 % 16
      if 1 ≤ len ∧ len ≤ 7 ∧ len ≤ rest.length then
        some (.singleFrame (rest.take len))
      else none
    else if b0 / 16 = 1 then
      match rest with
      | [] => none
      | b1 :: tailBytes => some (.firstFrame ((b0 % 16) * 256 + b1) tailBytes)
    else if b0 / 16 = 2 then
      some (.consecutiveFrame (b0 % 16) rest)
    else if b0 / 16 = 3 then
      match rest with
      | bs :: st :: _ =>
        if b0 % 16 = 0 then some (.flowControl .continueToSend bs st)
        else if b0 % 16 = 1 then some (.flowControl .waitStatus bs st)
        else if b0 % 16 = 2 then some (.flowControl .overflow bs st)
        else none
      | _ => none
    else none

/-- Modelled from the spec: padding of an encoded frame to the configured
size with the configured fill byte (spec 4.1). -/
def padTo (size fill : Nat) (l : List Nat) : List Nat :=
  l ++ List.replicate (size - l.length) fill

/-- Modelled from the spec: FrameCodec.build (spec 4.1), classic-CAN
forms; the codec source (vci_uds_tp_utils) is not under src/. -/
def buildFrame (fr : UdsTpFrame) (targetId : Nat) (_ct : CanType)
    (padSize padByte : Nat) : CanFrame :=
  match fr with
  | .singleFrame p => ⟨targetId, padTo padSize padByte (p.length % 16 :: p)⟩
  | .firstFrame total lead =>
      ⟨targetId, padTo padSize padByte ((16 + total / 256 % 16) :: total % 256 :: lead)⟩
  | .consecutiveFrame sn chunk => ⟨targetId, padTo padSize padByte ((32 + sn % 16) :: chunk)⟩
  | .flowControl st bs sep =>
      let stNibble : Nat :=
        match st with
        | .continueToSend => 0
        | .waitStatus => 1
        | .overflow => 2
      ⟨targetId, padTo padSize padByte [48 + stNibble, bs, sep]⟩

/-- The abort flag (m_abort_flag, set by Transaction::stopExecution) reads
true at time now iff it was stored at some time a ≤ now. -/
def abortSet (abortT : Option Nat) (now : Nat) : Bool :=
  match abortT with
  | none => false
  | some a => decide (a ≤ now)

/-- Time at which a wait entered at `start` observes the abort flag (the
flag may have been stored before the wait began). -/
def effAbort (abortT : Option Nat) (start : Nat) : Nat :=
  match abortT with
  | none => 0
  | some a => max a start

/-- True when the abort flag is observed no later than `bound` inside a
wait entered at `start` (Transaction::waitForFrame checks the flag at the
top of every poll iteration, before the deadline test). -/
def abortBefore (abortT : Option Nat) (start bound : Nat) : Bool :=
  match abortT with
  | none => false
  | some a => decide (max a start ≤ bound)

/-- STmin clamping of Transaction::handle_wait_for_fc (lines 189-195):
0x00..0x7F used as milliseconds unchanged, the sub-millisecond encodings
0xF1..0xF9 coerced to 1 ms, every other value defaulted to 127 ms. -/
def clampStMin (sep : Nat) : Nat :=
  if sep ≤ 0x7F then sep
  else if 0xF1 ≤ sep ∧ sep ≤ 0xF9 then 1
  else 127

/-- The response-pending test of Transaction::handle_wait_for_response
(line 274): a three-byte single-frame payload 0x7F, sid, 0x78 (the
middle byte is not inspected by the code). -/
def isNrc78 (p : List Nat) : Bool :=
  match p with
  | [b0, _, b2] => decide (b0 = 0x7F) && decide (b2 = 0x78)
  | _ => false

/-- Timed environment of a transaction: the CAN frames the provider will
hand over, as (absolute arrival time in ms, frame), in arrival order. -/
abbrev Env := List (Nat × CanFrame)

/-- Reassembler processing status (spec 4.3). -/
inductive ReasmStatus
  | idle
  | inProgress
  | complete
  | errorSequence
  | errorUnexpectedFrame
deriving DecidableEq

/-- Modelled from the spec: the Reassembler state (spec 4.3); its source
is not under src/. -/
structure Reassembler where
  status : ReasmStatus
  total : Nat
  buffer : List Nat
  expectedSn : Nat
deriving DecidableEq

/-- Fresh Reassembler (m_reassembler of a new Transaction). -/
def Reassembler.start : Reassembler := ⟨.idle, 0, [], 0⟩

/-- Modelled from the spec: Reassembler.process_frame (spec 4.3).  A
First Frame while idle records the announced total, copies the leading
bytes and sets expected_sn to 1 (complete at once when the leading bytes
already satisfy the total); a Consecutive Frame while in progress is a
sequence error on mismatch, otherwise appends bytes clipped to the
remaining total and advances expected_sn with wrap 1..15,0,1,...; any
other frame while in progress is an unexpected-frame error. -/
def Reassembler.processFrame (r : Reassembler) (fr : UdsTpFrame) : Reassembler :=
  match r.status, fr with
  | .idle, .firstFrame total lead =>
      let buf := lead.take total
      if total ≤ buf.length then ⟨.complete, total, buf, 1⟩
      else ⟨.inProgress, total, buf, 1⟩
  | .inProgress, .consecutiveFrame sn chunk =>
      if sn ≠ r.expectedSn then { r with status := .errorSequence }
      else
        let buf := r.buffer ++ chunk.take (r.total - r.buffer.length)
        if r.total ≤ buf.length then ⟨.complete, r.total, buf, (r.expectedSn + 1) % 16⟩
        else ⟨.inProgress, r.total, buf, (r.expectedSn + 1) % 16⟩
  | .inProgress, _ => { r with status := .errorUnexpectedFrame }
  | _, _ => r

/-- Completion epilogue of Transaction::handle_receive_consecutive_frames
(lines 356-369): on a complete reassembly the payload is checked for a
negative response (leading 0x7F), otherwise the loop left the reassembler
in an unexpected state and the transaction fails internally. -/
def finishReassembly (r : Reassembler) (time : Nat) : TransactionResult × Nat :=
  if r.status = .complete then
    if r.buffer ≠ [] ∧ r.buffer.headD 0 = 0x7F then
      (⟨false, .negativeResponse, r.buffer⟩, time)
    else
      (⟨true, .ok, r.buffer⟩, time)
  else
    (⟨false, .internalError, []⟩, time)

/-- Transaction::handle_receive_consecutive_frames (lines 328-370) with
Transaction::waitForFrame (lines 63-84) inlined: while the reassembler is
in progress, wait up to n_cr for a frame on the response identifier
(frames on other identifiers are consumed without restarting the window;
the abort flag is polled throughout), parse it (a parse failure loops
back to a fresh wait), and feed it to the reassembler; a sequence error
or an unexpected frame fails the transaction, and completion runs the
negative-response check.  Returns the result together with the absolute
time at which the state is left. -/
def receiveCfLoop (ctx : UdsSessionContext) (abortT : Option Nat)
    (time : Nat) (r : Reassembler) : Env → TransactionResult × Nat
  | [] =>
    if r.status ≠ .inProgress then finishReassembly r time
    else if abortBefore abortT time (time + ctx.tp_config.n_cr_timeout) then
      (⟨false, .aborted, []⟩, effAbort abortT time)
    else
      (⟨false, .timeoutCr, []⟩, time + ctx.tp_config.n_cr_timeout)
  | (t, f) :: rest =>
    if r.status ≠ .inProgress then finishReassembly r time
    else if abortBefore abortT time (min (max t time) (time + ctx.tp_config.n_cr_timeout)) then
      (⟨false, .aborted, []⟩, effAbort abortT time)
    else if max t time < time + ctx.tp_config.n_cr_timeout then
      if f.canId = ctx.response_id then
        match parseFrame f with
        | none => receiveCfLoop ctx abortT (max t time) r rest
        | some tp =>
          let r' := r.processFrame tp
          if r'.status = .errorSequence then (⟨false, .sequenceError, []⟩, max t time)
          else if r'.status = .errorUnexpectedFrame then
            (⟨false, .unexpectedFrame, []⟩, max t time)
          else receiveCfLoop ctx abortT (max t time) r' rest
      else
        receiveCfLoop ctx abortT time r rest
    else
      (⟨false, .timeoutCr, []⟩, time + ctx.tp_config.n_cr_timeout)

/-- Transaction::handle_wait_for_response (lines 248-326) with
Transaction::waitForFrame (lines 63-84) inlined.  The window timeout
starts at n_as (supplied by the caller) and is replaced by n_ar after a
response-pending reply; every accepted frame on the response identifier
is parsed, a parse failure or a frame that is neither a Single Frame nor
a First Frame loops back to a fresh wait; a pending single frame
increments the NRC-0x78 counter and fails with Nrc78LimitExceeded as
soon as the counter reaches max_nrc78_count; any other single frame
completes (negatively when it starts with 0x7F); a First Frame starts
the reassembler and, after sending Flow Control Continue, hands over to
the consecutive-frame reception loop.  A timeout yields TimeoutP2Star
when a pending reply was seen and TimeoutA otherwise; the abort flag is
polled throughout.  Returns the result and the time the state is left. -/
def waitResponseLoop (ctx : UdsSessionContext) (sender : CanFrame → Bool)
    (abortT : Option Nat) (time timeout nrc : Nat) : Env → TransactionResult × Nat
  | [] =>
    if abortBefore abortT time (time + timeout) then
      (⟨false, .aborted, []⟩, effAbort abortT time)
    else
      (⟨false, if nrc > 0 then .timeoutP2Star else .timeoutA, []⟩, time + timeout)
  | (t, f) :: rest =>
    if abortBefore abortT time (min (max t time) (time + timeout)) then
      (⟨false, .aborted, []⟩, effAbort abortT time)
    else if max t time < time + timeout then
      if f.canId = ctx.response_id then
        match parseFrame f with
        | none => waitResponseLoop ctx sender abortT (max t time) timeout nrc rest
        | some (.singleFrame p) =>
          if isNrc78 p then
            if nrc + 1 ≥ ctx.tp_config.max_nrc78_count then
              (⟨false, .nrc78LimitExceeded, []⟩, max t time)
            else
              waitResponseLoop ctx sender abortT (max t time)
                ctx.tp_config.n_ar_timeout (nrc + 1) rest
          else if p ≠ [] ∧ p.headD 0 = 0x7F then
            (⟨false, .negativeResponse, p⟩, max t time)
          else
            (⟨true, .ok, p⟩, max t time)
        | some (.firstFrame total lead) =>
          let r := Reassembler.start.processFrame (.firstFrame total lead)
          if r.status = .inProgress then
            if sender (buildFrame
                (.flowControl .continueToSend ctx.tp_config.block_size ctx.tp_config.st_min)
                ctx.request_id ctx.can_type ctx.padding_target_size ctx.padding_fill_byte) then
              receiveCfLoop ctx abortT (max t time) r rest
            else
              (⟨false, .sendFailed, []⟩, max t time)
          else if r.status = .complete then
            (⟨true, .ok, r.buffer⟩, max t time)
          else
            (⟨false, .unexpectedFrame, []⟩, max t time)
        | some _ => waitResponseLoop ctx sender abortT (max t time) timeout nrc rest
      else
        waitResponseLoop ctx sender abortT time timeout nrc rest
    else
      (⟨false, if nrc > 0 then .timeoutP2Star else .timeoutA, []⟩, time + timeout)

/-- Exit of the WAIT_FOR_FC state: either the machine proceeds to
SEND_CONSECUTIVE_FRAMES with the captured block size and the clamped
separation time, or the transaction fails. -/
inductive FcOutcome
  | toSend (blockSize stMin : Nat) (time : Nat) (rest : Env)
  | fcFailed (code : ResultCode) (time : Nat)
deriving DecidableEq

/-- Transaction::handle_wait_for_fc (lines 163-204) with
Transaction::waitForFrame inlined, including the re-entry of the
execute() loop while the state stays WAIT_FOR_FC: a Flow Control with
status Continue captures block size and clamped STmin and enters
SEND_CONSECUTIVE_FRAMES; status Wait leaves the state unchanged, so the
next iteration waits a fresh n_bs window from the Wait frame's arrival;
status Overflow fails with FcOverflow; an accepted frame that is not a
Flow Control (parse failure included) fails with UnexpectedFrame; the
elapse of n_bs with no accepted frame fails with TimeoutBs; the abort
flag is polled throughout. -/
def fcWaitLoop (ctx : UdsSessionContext) (abortT : Option Nat)
    (time : Nat) : Env → FcOutcome
  | [] =>
    if abortBefore abortT time (time + ctx.tp_config.n_bs_timeout) then
      .fcFailed .aborted (effAbort abortT time)
    else
      .fcFailed .timeoutBs (time + ctx.tp_config.n_bs_timeout)
  | (t, f) :: rest =>
    if abortBefore abortT time (min (max t time) (time + ctx.tp_config.n_bs_timeout)) then
      .fcFailed .aborted (effAbort abortT time)
    else if max t time < time + ctx.tp_config.n_bs_timeout then
      if f.canId = ctx.response_id then
        match parseFrame f with
        | some (.flowControl .continueToSend bs sep) =>
            .toSend bs (clampStMin sep) (max t time) rest
        | some (.flowControl .waitStatus _ _) => fcWaitLoop ctx abortT (max t time) rest
        | some (.flowControl .overflow _ _) => .fcFailed .fcOverflow (max t time)
        | _ => .fcFailed .unexpectedFrame (max t time)
      else
        fcWaitLoop ctx abortT time rest
    else
      .fcFailed .timeoutBs (time + ctx.tp_config.n_bs_timeout)

/-- Modelled from the spec: the Segmenter (spec 4.2); its source is not
under src/.  Represented by the sequence number of the next Consecutive
Frame and the bytes not yet emitted.  Classic-CAN capacities: the First
Frame carries the leading 6 bytes, each Consecutive Frame up to 7;
sequence numbers run 1,2,...,15,0,1,... -/
structure Segmenter where
  sn : Nat
  remaining : List Nat
deriving DecidableEq

/-- Modelled from the spec: Segmenter construction plus its first
get_next_frame call, which yields the First Frame announcing the total
size and carrying the leading bytes (spec 4.2). -/
def Segmenter.start (payload : List Nat) : Segmenter × UdsTpFrame :=
  (⟨1, payload.drop 6⟩, .firstFrame payload.length (payload.take 6))

/-- Modelled from the spec: get_next_frame after the First Frame: the
next Consecutive Frame and the advanced Segmenter (spec 4.2). -/
def Segmenter.nextCf (s : Segmenter) : UdsTpFrame × Segmenter :=
  (.consecutiveFrame s.sn (s.remaining.take 7), ⟨(s.sn + 1) % 16, s.remaining.drop 7⟩)

/-- Separation-time pacing of Transaction::handle_send_consecutive_frames
(lines 224-233): busy-wait stMin milliseconds in 1 ms steps, polling the
abort flag before each step.  Returns whether the wait was aborted and
the time at which it ended. -/
def paceWait (abortT : Option Nat) (time stMin : Nat) : Bool × Nat :=
  if stMin = 0 then (false, time)
  else if abortBefore abortT time (time + stMin - 1) then (true, effAbort abortT time)
  else (false, time + stMin)

/-- Exit of the SEND_CONSECUTIVE_FRAMES state: all frames sent (back to
waiting for the response), a block boundary (back to WAIT_FOR_FC), or a
failure. -/
inductive CfOutcome
  | cfDone (time : Nat)
  | backToFc (time : Nat) (seg : Segmenter)
  | cfFailed (code : ResultCode) (time : Nat)
deriving DecidableEq

/-- Transaction::handle_send_consecutive_frames (lines 206-246): until
the segmenter is done, poll the abort flag, hand control back to
WAIT_FOR_FC after block_size frames when the block size is positive,
pace by the separation time (abort-checked), and send the next
Consecutive Frame.  The fuel argument bounds the recursion; any value
above the number of remaining chunks is sufficient and the callers
supply one. -/
def sendCfLoop (ctx : UdsSessionContext) (sender : CanFrame → Bool)
    (abortT : Option Nat) (bs stMin : Nat) :
    Nat → Nat → Nat → Segmenter → CfOutcome
  | 0, time, _, _ => .cfFailed .internalError time
  | fuel + 1, time, sent, seg =>
    if seg.remaining.isEmpty then .cfDone time
    else if abortSet abortT time then .cfFailed .aborted time
    else if 0 < bs ∧ bs ≤ sent then .backToFc time seg
    else
      match paceWait abortT time stMin with
      | (true, et) => .cfFailed .aborted et
      | (false, t') =>
        let (fr, seg') := seg.nextCf
        if sender (buildFrame fr ctx.request_id ctx.can_type
            ctx.padding_target_size ctx.padding_fill_byte) then
          sendCfLoop ctx sender abortT bs stMin fuel t' (sent + 1) seg'
        else
          .cfFailed .sendFailed t'

/-- Exit of the multi-frame send phase: either every Consecutive Frame
went out (on to WAIT_FOR_RESPONSE), or the transaction failed. -/
inductive FfOutcome
  | ffReady (time : Nat) (rest : Env)
  | ffFailed (code : ResultCode) (time : Nat)
deriving DecidableEq

/-- The WAIT_FOR_FC / SEND_CONSECUTIVE_FRAMES alternation of
Transaction::execute: wait for a Flow Control, send a block, return to
WAIT_FOR_FC at block boundaries.  Per Continue the sent-in-block counter
restarts at zero (handle_wait_for_fc line 188).  The fuel argument
bounds the alternation; every iteration consumes at least one frame of
the environment, so any value above the environment length is
sufficient and execute supplies one. -/
def ffLoop (ctx : UdsSessionContext) (sender : CanFrame → Bool)
    (abortT : Option Nat) : Nat → Nat → Segmenter → Env → FfOutcome
  | 0, time, _, _ => .ffFailed .internalError time
  | fuel + 1, time, seg, env =>
    match fcWaitLoop ctx abortT time env with
    | .fcFailed c t => .ffFailed c t
    | .toSend bs stMin t rest =>
      match sendCfLoop ctx sender abortT bs stMin (seg.remaining.length + 1) t 0 seg with
      | .cfDone t' => .ffReady t' rest
      | .cfFailed c t' => .ffFailed c t'
      | .backToFc t' seg' => ffLoop ctx sender abortT fuel t' seg' rest

/-- Transaction::execute (lines 43-61) composed from handle_start (lines
116-130), handle_send_single_frame (132-145), handle_send_first_frame
(147-161) and the state handlers above: the abort flag is checked at the
top of the state-machine loop; a payload that fits a single frame (7
bytes classic, 62 FD) is sent as one Single Frame followed by
WAIT_FOR_RESPONSE; a larger payload within the protocol maximum (4095
classic) is segmented, the First Frame is sent, the Flow Control /
Consecutive Frame alternation runs, and the machine then waits for the
response; an oversize payload fails with PayloadTooLarge and a failed
send with SendFailed.  Returns the TransactionResult and the absolute
time at which execute() returns. -/
def execute (ctx : UdsSessionContext) (sender : CanFrame → Bool)
    (abortT : Option Nat) (startTime : Nat) (payload : List Nat)
    (env : Env) : TransactionResult × Nat :=
  if abortSet abortT startTime then (⟨false, .aborted, []⟩, startTime)
  else
    let maxSf : Nat := if ctx.can_type ≠ .classic then 62 else 7
    if payload.length ≤ maxSf then
      if sender (buildFrame (.singleFrame payload) ctx.request_id ctx.can_type
          ctx.padding_target_size ctx.padding_fill_byte) then
        waitResponseLoop ctx sender abortT startTime ctx.tp_config.n_as_timeout 0 env
      else
        (⟨false, .sendFailed, []⟩, startTime)
    else
      let maxPayload : Nat := if ctx.can_type ≠ .classic then 0xFFFFFFFF else 4095
      if maxPayload < payload.length then (⟨false, .payloadTooLarge, []⟩, startTime)
      else
        let (seg, ff) := Segmenter.start payload
        if sender (buildFrame ff ctx.request_id ctx.can_type
            ctx.padding_target_size ctx.padding_fill_byte) then
          match ffLoop ctx sender abortT (env.length + 1) startTime seg env with
          | .ffFailed c t => (⟨false, c, []⟩, t)
          | .ffReady t rest =>
            waitResponseLoop ctx sender abortT t ctx.tp_config.n_as_timeout 0 rest
        else
          (⟨false, .sendFailed, []⟩, startTime)

/-- State visible to Service::requestAsync: the running flag and the
physical request queue (oldest first). -/
structure AsyncState where
  running : Bool
  queue : List (List Nat)
deriving DecidableEq

/-- Service::requestAsync (lines 219-229): reject when the service is
not running or the payload is empty; report QueueFull without enqueuing
when the queue size exceeds REQUEST_QUEUE_SIZE (whose numeric value
lives in a header not under src/, hence the parameter); otherwise
enqueue and return Ok.  The on-demand worker start does not touch the
queue. -/
def requestAsync (REQUEST_QUEUE_SIZE : Nat) (s : AsyncState)
    (p : List Nat) : ResultCode × AsyncState :=
  if ¬ s.running then (.internalError, s)
  else if p.isEmpty then (.invalidParam, s)
  else if REQUEST_QUEUE_SIZE < s.queue.length then (.queueFull, s)
  else (.ok, { s with queue := s.queue ++ [p] })

/-- Iterated requestAsync: the calls a client issues back to back with
no draining in between; returns the codes in call order and the final
state. -/
def requestAsyncCalls (REQUEST_QUEUE_SIZE : Nat) :
    AsyncState → List (List Nat) → List ResultCode × AsyncState
  | s, [] => ([], s)
  | s, p :: ps =>
    let (c, s') := requestAsync REQUEST_QUEUE_SIZE s p
    let (cs, s'') := requestAsyncCalls REQUEST_QUEUE_SIZE s' ps
    (c :: cs, s'')

/-- An entry of the physical response queue (Service::Response). -/
structure SvcResponse where
  result_code : ResultCode
  payload : List Nat
deriving DecidableEq

/-- Per-request tail of Service::physicalProcessingThreadFunc (lines
333-336): the transaction outcome is enqueued to the response queue
unless its code is Aborted, and the worker loop continues either way
(the returned flag). -/
def physicalWorkerStep (res : SvcResponse) (respQueue : List SvcResponse) :
    List SvcResponse × Bool :=
  (if res.result_code ≠ .aborted then respQueue ++ [res] else respQueue, true)

/-- Service::executeSecurityAccessSequence (lines 163-210).  The bus is
abstracted as reqSync, mapping a request payload to the result code and
response payload Service::requestSync would produce, and the security
provider as calculateKey.  Returns the result code, the final response
the caller receives (finalResp0 is the caller's buffer, left untouched
on the paths that do not assign it), and the list of request payloads
handed to requestSync, in order. -/
def executeSecurityAccessSequence (reqSync : List Nat → ResultCode × List Nat)
    (calculateKey : Nat → List Nat → ResultCode × List Nat)
    (level : Nat) (finalResp0 : List Nat) :
    ResultCode × List Nat × List (List Nat) :=
  let seedReq : List Nat := [0x27, (2 * level + 255) % 256]
  let step1 := reqSync seedReq
  if step1.1 ≠ .ok then (step1.1, step1.2, [seedReq])
  else if step1.2.length < 3 ∨ step1.2.headD 0 ≠ 0x67 then
    (.securityInvalidSeed, finalResp0, [seedReq])
  else
    let seed := step1.2.drop 2
    if seed.isEmpty then (.securityInvalidSeed, finalResp0, [seedReq])
    else
      let step2 := calculateKey level seed
      if step2.1 ≠ .ok then (step2.1, finalResp0, [seedReq])
      else
        let keyReq : List Nat := [0x27, (2 * level) % 256] ++ step2.2
        let step3 := reqSync keyReq
        (step3.1, step3.2, [seedReq, keyReq])

/-- Shared state the sender closures touch: the keep-alive idle clock
(m_last_tx_time_ms) and the frames that went out on the bus. -/
structure SenderState where
  last_tx_time_ms : Nat
  sent : List CanFrame
deriving DecidableEq

/-- Service::updateLastTxTime (lines 431-433). -/
def serviceUpdateLastTxTime (now : Nat) (s : SenderState) : SenderState :=
  { s with last_tx_time_ms := now }

/-- Effect of the sender closure Service::executeTransaction binds into a
physical Transaction (line 397): refresh the last-transmit time, then
hand the frame to the Communicator. -/
def physicalSend (now : Nat) (s : SenderState) (f : CanFrame) : SenderState :=
  { serviceUpdateLastTxTime now s with sent := s.sent ++ [f] }

/-- Effect of the sender closure Service::functionalProcessingThreadFunc
binds into a FunctionalTransaction (line 365): hand the frame to the
Communicator only; the last-transmit time is not refreshed. -/
def functionalSend (s : SenderState) (f : CanFrame) : SenderState :=
  { s with sent := s.sent ++ [f] }

/-- Due test of Service::keepAliveThreadFunc (lines 489-492): a
Tester-Present send is due when at least tester_present_interval_ms
elapsed since the last transmit. -/
def keepAliveDue (intervalMs now : Nat) (s : SenderState) : Bool :=
  decide (intervalMs ≤ (if s.last_tx_time_ms < now then now - s.last_tx_time_ms else 0))

/-- The three code paths of the Service that talk on the bus under the
transaction mutex: a synchronous caller inside requestSync, the physical
async worker, and the keep-alive sender. -/
inductive BusThread
  | syncCaller
  | physWorker
  | keepAlive
deriving DecidableEq

/-- Events of the mutex interleaving model: acquiring m_transaction_mutex,
sending one frame, releasing the mutex. -/
inductive LockEv
  | lockTx
  | send
  | unlockTx
deriving DecidableEq

/-- A critical section that sends n frames while holding the transaction
mutex. -/
def lockedSends (n : Nat) : List LockEv :=
  .lockTx :: List.replicate n .send ++ [.unlockTx]

/-- Event programs of the three paths, as the source writes them:
requestSync and the physical worker both run Service::executeTransaction,
which performs every send of its Transaction while holding
m_transaction_mutex (lines 407-411); the keep-alive thread sends its
single Tester-Present frame while holding the same mutex (lines
498-516). -/
def busProg (nSync nPhys : Nat) : BusThread → List LockEv
  | .syncCaller => lockedSends nSync
  | .physWorker => lockedSends nPhys
  | .keepAlive => lockedSends 1

/-- State of the interleaving model: the mutex owner, each thread's
remaining program, and the emitted trace (newest event first). -/
structure BusState where
  holder : Option BusThread
  rem : BusThread → List LockEv
  trace : List (BusThread × LockEv)

/-- One scheduler step: the chosen thread runs its next event; a lock
attempt while the mutex is held blocks (the step is a no-op), matching
std::lock_guard semantics. -/
def busStep (s : BusState) (t : BusThread) : BusState :=
  match s.rem t with
  | [] => s
  | e :: es =>
    match e with
    | .lockTx =>
      if s.holder = none then
        ⟨some t, Function.update s.rem t es, (t, .lockTx) :: s.trace⟩
      else s
    | .send => ⟨s.holder, Function.update s.rem t es, (t, .send) :: s.trace⟩
    | .unlockTx =>
      if s.holder = some t then
        ⟨none, Function.update s.rem t es, (t, .unlockTx) :: s.trace⟩
      else s

/-- Run the model under a schedule (a list of thread choices). -/
def busRun (s : BusState) (sched : List BusThread) : BusState :=
  sched.foldl busStep s

/-- Initial state for given transaction send counts. -/
def busInit (nSync nPhys : Nat) : BusState :=
  ⟨none, busProg nSync nPhys, []⟩

/-- The senders appearing in a trace, newest first. -/
def sendsOf (trace : List (BusThread × LockEv)) : List BusThread :=
  trace.filterMap (fun p => if p.2 = .send then some p.1 else none)

/-- A thread is inside its critical section when it has acquired the
mutex and not yet released it: its remaining program is a proper,
nonempty suffix of its program. -/
def inCritSection (nSync nPhys : Nat) (s : BusState) (t : BusThread) : Prop :=
  s.rem t ≠ busProg nSync nPhys t ∧ s.rem t ≠ []

/-- Send spans do not interleave: no send of another thread occurs
between two sends of the same thread. -/
def SendsDisjoint (l : List BusThread) : Prop :=
  ∀ (i j k : Nat) (t u : BusThread), i < j → j < k → l[i]? = some t →
    l[k]? = some t → l[j]? = some u → u = t

/-- A parsed frame that WAIT_FOR_RESPONSE neither completes on nor hands
to the reassembler: a parse failure or a frame type other than Single
Frame and First Frame (lines 263-267 and 321-324). -/
def ignoredInWaitResponse (f : CanFrame) : Bool :=
  match parseFrame f with
  | none => true
  | some (.singleFrame _) => false
  | some (.firstFrame _ _) => false
  | some _ => true

/-- Whether a parse outcome is a Flow Control frame. -/
def isFcParse : Option UdsTpFrame → Bool
  | some (.flowControl _ _ _) => true
  | _ => false

/-- Classic-CAN session context with max_nrc78_count = 2 (n_as 100 ms,
n_bs 150 ms, n_cr 160 ms, n_ar 200 ms). -/
def ctxMax2 : UdsSessionContext :=
  ⟨0x7E0, 0x7E8, .classic, 8, 0xAA, ⟨100, 150, 160, 200, 0, 0, 2⟩⟩

/-- Same context with max_nrc78_count = 5. -/
def ctxMax5 : UdsSessionContext :=
  ⟨0x7E0, 0x7E8, .classic, 8, 0xAA, ⟨100, 150, 160, 200, 0, 0, 5⟩⟩

/-- A sender whose sends always succeed. -/
def sendOk : CanFrame → Bool := fun _ => true

/-- Response-pending reply on the response identifier: a single frame
with payload 0x7F 0x22 0x78. -/
def pendingFrame : CanFrame := ⟨0x7E8, [0x03, 0x7F, 0x22, 0x78]⟩

/-- Positive reply on the response identifier: a single frame with
payload 0x62 0xF1 0x90 0x01. -/
def positiveFrame : CanFrame := ⟨0x7E8, [0x04, 0x62, 0xF1, 0x90, 0x01]⟩

/-- A frame on the response identifier whose PCI nibble 0xF parses to
nothing. -/
def garbledFrame : CanFrame := ⟨0x7E8, [0xFF]⟩

/-- C1: counterexample — the code fails with Nrc78LimitExceeded as soon as
the pending counter reaches max_nrc78_count (handle_wait_for_response line
278 tests count >= limit after the increment), so with max_nrc78_count = 2
the second response-pending reply is not tolerated: execute() fails at the
second pending frame (time 20) even though a positive response follows at
time 30, contradicting the claim that the second pending reply is still
tolerated and only the third fails. -/
theorem c1_counterexample :
    execute ctxMax2 sendOk none 0 [0x22, 0xF1, 0x90]
      [(10, pendingFrame), (20, pendingFrame), (30, positiveFrame)] =
      (⟨false, .nrc78LimitExceeded, []⟩, 20) := by decide

/-- C1 (amended): in WAIT_FOR_RESPONSE each single-frame reply equal to
0x7F sid 0x78 increments the pending counter; while the incremented
counter is still below max_nrc78_count the timeout is refreshed to n_ar
and the wait continues, and as soon as it reaches max_nrc78_count the
transaction fails with Nrc78LimitExceeded — so with max_nrc78_count = 2
the second pending reply already fails; with max_nrc78_count = 5 three
pending replies followed by a positive response still yield a completed
transaction. -/
theorem c1_amended (ctx : UdsSessionContext) (sender : CanFrame → Bool)
    (time timeout nrc t sid : Nat) (f : CanFrame) (rest : Env)
    (hid : f.canId = ctx.response_id)
    (hp : parseFrame f = some (.singleFrame [0x7F, sid, 0x78]))
    (hwin : max t time < time + timeout) :
    (nrc + 1 < ctx.tp_config.max_nrc78_count →
      waitResponseLoop ctx sender none time timeout nrc ((t, f) :: rest) =
        waitResponseLoop ctx sender none (max t time)
          ctx.tp_config.n_ar_timeout (nrc + 1) rest) ∧
    (ctx.tp_config.max_nrc78_count ≤ nrc + 1 →
      waitResponseLoop ctx sender none time timeout nrc ((t, f) :: rest) =
        (⟨false, .nrc78LimitExceeded, []⟩, max t time)) ∧
    execute ctxMax2 sendOk none 0 [0x22, 0xF1, 0x90]
      [(10, pendingFrame), (20, pendingFrame), (30, positiveFrame)] =
      (⟨false, .nrc78LimitExceeded, []⟩, 20) ∧
    execute ctxMax5 sendOk none 0 [0x22, 0xF1, 0x90]
      [(10, pendingFrame), (20, pendingFrame), (30, pendingFrame), (40, positiveFrame)] =
      (⟨true, .ok, [0x62, 0xF1, 0x90, 0x01]⟩, 40) := by
  refine ⟨?_, ?_, by decide, by decide⟩ <;> intro h <;>
    simp [waitResponseLoop, abortBefore, hwin, hid, hp, isNrc78] <;> omega

/-- C1 witness: the pending-reply transitions of c1_amended instantiated
at concrete inputs (counter refresh under max_nrc78_count = 5, limit hit
under max_nrc78_count = 2). -/
theorem c1_witness :
    waitResponseLoop ctxMax5 sendOk none 0 100 0 [(10, pendingFrame)] =
      waitResponseLoop ctxMax5 sendOk none (max 10 0)
        ctxMax5.tp_config.n_ar_timeout (0 + 1) [] ∧
    waitResponseLoop ctxMax2 sendOk none 0 100 1 [(10, pendingFrame)] =
      (⟨false, .nrc78LimitExceeded, []⟩, max 10 0) :=
  ⟨(c1_amended ctxMax5 sendOk 0 100 0 10 0x22 pendingFrame []
      (by decide) (by decide) (by decide)).1 (by decide),
   (c1_amended ctxMax2 sendOk 0 100 1 10 0x22 pendingFrame []
      (by decide) (by decide) (by decide)).2.1 (by decide)⟩

/-- C2: counterexample — a garbled frame on the response identifier makes
handle_wait_for_response loop back into a fresh waitForFrame call, which
restarts the whole timeout window at the garbled frame's arrival: with
n_as = 100 ms and a single unparseable frame arriving at 90 ms, the
transaction fails with TimeoutA only at 190 ms, beyond the single
configured timeout measured from entry into the wait. -/
theorem c2_counterexample :
    execute ctxMax2 sendOk none 0 [0x22, 0xF1, 0x90] [(90, garbledFrame)] =
      (⟨false, .timeoutA, []⟩, 190) ∧ ¬ (190 ≤ 0 + 100) := by decide

/-- C2 (amended): in WAIT_FOR_RESPONSE a frame on the response identifier
that fails to parse, or parses to a type other than Single Frame and
First Frame, is ignored — the wait continues with the same pending
counter and timeout value — but the timeout window restarts at that
frame's arrival time, so the total wait is not bounded by a single
timeout from entry; only frames on other CAN identifiers are consumed
without restarting the window.  With no further frame the wait then
fails with a timeout a full timeout after the last ignored frame. -/
theorem c2_amended (ctx : UdsSessionContext) (sender : CanFrame → Bool)
    (time timeout nrc t : Nat) (f g : CanFrame) (rest : Env)
    (hid : f.canId = ctx.response_id)
    (hign : ignoredInWaitResponse f = true)
    (hwin : max t time < time + timeout)
    (hgid : g.canId ≠ ctx.response_id)
    (hgwin : max t time < time + timeout) :
    (waitResponseLoop ctx sender none time timeout nrc ((t, f) :: rest) =
      waitResponseLoop ctx sender none (max t time) timeout nrc rest) ∧
    (waitResponseLoop ctx sender none time timeout nrc ((t, g) :: rest) =
      waitResponseLoop ctx sender none time timeout nrc rest) ∧
    (waitResponseLoop ctx sender none (max t time) timeout nrc [] =
      (⟨false, if nrc > 0 then .timeoutP2Star else .timeoutA, []⟩,
        (max t time) + timeout)) := by
  refine ⟨?_, ?_, ?_⟩
  · unfold ignoredInWaitResponse at hign
    rcases hpf : parseFrame f with _ | tp
    · simp [waitResponseLoop, abortBefore, hwin, hid, hpf]
    · rcases tp with p | ⟨total, lead⟩ | ⟨sn, ch⟩ | ⟨st, bs, sep⟩ <;>
        rw [hpf] at hign <;> simp at hign <;>
        simp [waitResponseLoop, abortBefore, hwin, hid, hpf]
  · simp [waitResponseLoop, abortBefore, hgwin, hgid]
  · simp [waitResponseLoop, abortBefore]

/-- C2 witness: the restart equation and the no-restart equation of
c2_amended at a concrete garbled frame, wrong-identifier frame and
window. -/
theorem c2_witness :
    waitResponseLoop ctxMax2 sendOk none 0 100 0 [(90, garbledFrame)] =
      waitResponseLoop ctxMax2 sendOk none (max 90 0) 100 0 [] ∧
    waitResponseLoop ctxMax2 sendOk none 0 100 0 [(90, ⟨0x123, [0xFF]⟩)] =
      waitResponseLoop ctxMax2 sendOk none 0 100 0 [] ∧
    waitResponseLoop ctxMax2 sendOk none (max 90 0) 100 0 [] =
      (⟨false, if 0 > 0 then .timeoutP2Star else .timeoutA, []⟩, (max 90 0) + 100) := by
  have h := c2_amended ctxMax2 sendOk 0 100 0 90 garbledFrame ⟨0x123, [0xFF]⟩ []
    (by decide) (by decide) (by decide) (by decide) (by decide)
  exact ⟨h.1, h.2.1, h.2.2⟩

/-- C5: on a Flow Control with status Continue accepted in WAIT_FOR_FC,
the machine captures the frame's block size and the clamped separation
time and enters SEND_CONSECUTIVE_FRAMES (the toSend outcome, consumed by
the send loop); the clamp maps 0..0x7F to itself (milliseconds as-is),
0xF1..0xF9 to 1 ms, and every other value to 127 ms. -/
theorem c5_fc_continue_clamp (ctx : UdsSessionContext) (time t bs sep : Nat)
    (f : CanFrame) (rest : Env)
    (hid : f.canId = ctx.response_id)
    (hp : parseFrame f = some (.flowControl .continueToSend bs sep))
    (hwin : max t time < time + ctx.tp_config.n_bs_timeout) :
    fcWaitLoop ctx none time ((t, f) :: rest) =
      .toSend bs (clampStMin sep) (max t time) rest ∧
    (sep ≤ 0x7F → clampStMin sep = sep) ∧
    (0xF1 ≤ sep → sep ≤ 0xF9 → clampStMin sep = 1) ∧
    (0x7F < sep → sep < 0xF1 → clampStMin sep = 127) ∧
    (0xF9 < sep → clampStMin sep = 127) := by
  refine ⟨?_, ?_, ?_, ?_, ?_⟩
  · simp [fcWaitLoop, abortBefore, hwin, hid, hp]
  all_goals intros
  all_goals unfold clampStMin
  all_goals split_ifs <;> omega

/-- C5 witness: c5_fc_continue_clamp at a concrete Continue frame with
block size 4 and the sub-millisecond STmin encoding 0xF5. -/
theorem c5_witness :
    fcWaitLoop ctxMax2 none 0 [(10, ⟨0x7E8, [0x30, 0x04, 0xF5]⟩)] =
      .toSend 4 (clampStMin 0xF5) (max 10 0) [] ∧
    clampStMin 0xF5 = 1 := by
  have h := c5_fc_continue_clamp ctxMax2 0 10 4 0xF5 ⟨0x7E8, [0x30, 0x04, 0xF5]⟩ []
    (by decide) (by decide) (by decide)
  exact ⟨h.1, h.2.2.1 (by decide) (by decide)⟩

/-- C6: in WAIT_FOR_FC a Flow Control with status Wait leaves the machine
in WAIT_FOR_FC, continuing the wait from the Wait frame's arrival with a
fresh full n_bs window (the timeout re-arm is the time argument of the
recursive call, and the bare-window clause shows the deadline is a full
n_bs from that point); status Overflow fails with FcOverflow; the elapse
of n_bs with no accepted frame fails with TimeoutBs; an accepted frame on
the response identifier that is not a Flow Control (parse failures
included) fails with UnexpectedFrame. -/
theorem c6_wait_for_fc (ctx : UdsSessionContext) (time t bs sep : Nat)
    (f : CanFrame) (rest : Env)
    (hid : f.canId = ctx.response_id)
    (hwin : max t time < time + ctx.tp_config.n_bs_timeout) :
    (parseFrame f = some (.flowControl .waitStatus bs sep) →
      fcWaitLoop ctx none time ((t, f) :: rest) =
        fcWaitLoop ctx none (max t time) rest) ∧
    (parseFrame f = some (.flowControl .overflow bs sep) →
      fcWaitLoop ctx none time ((t, f) :: rest) =
        .fcFailed .fcOverflow (max t time)) ∧
    (fcWaitLoop ctx none time [] =
      .fcFailed .timeoutBs (time + ctx.tp_config.n_bs_timeout)) ∧
    (isFcParse (parseFrame f) = false →
      fcWaitLoop ctx none time ((t, f) :: rest) =
        .fcFailed .unexpectedFrame (max t time)) := by
  refine ⟨?_, ?_, ?_, ?_⟩
  · intro hp; simp [fcWaitLoop, abortBefore, hwin, hid, hp]
  · intro hp; simp [fcWaitLoop, abortBefore, hwin, hid, hp]
  · simp [fcWaitLoop, abortBefore]
  · intro hp
    unfold isFcParse at hp
    rcases hpf : parseFrame f with _ | tp
    · simp [fcWaitLoop, abortBefore, hwin, hid, hpf]
    · rcases tp with p | ⟨total, lead⟩ | ⟨sn, ch⟩ | ⟨st, b, sp⟩ <;>
        rw [hpf] at hp <;> simp at hp <;>
        simp [fcWaitLoop, abortBefore, hwin, hid, hpf]

/-- C6 witness: c6_wait_for_fc at concrete Wait, Overflow and
non-Flow-Control frames inside the n_bs window, plus the timeout
clause. -/
theorem c6_witness :
    fcWaitLoop ctxMax2 none 0 [(10, ⟨0x7E8, [0x31, 0x00, 0x00]⟩)] =
      fcWaitLoop ctxMax2 none (max 10 0) [] ∧
    fcWaitLoop ctxMax2 none 0 [(10, ⟨0x7E8, [0x32, 0x00, 0x00]⟩)] =
      .fcFailed .fcOverflow (max 10 0) ∧
    fcWaitLoop ctxMax2 none 0 [] =
      .fcFailed .timeoutBs (0 + ctxMax2.tp_config.n_bs_timeout) ∧
    fcWaitLoop ctxMax2 none 0 [(10, garbledFrame)] =
      .fcFailed .unexpectedFrame (max 10 0) := by
  have hw := c6_wait_for_fc ctxMax2 0 10 0 0 ⟨0x7E8, [0x31, 0x00, 0x00]⟩ []
    (by decide) (by decide)
  have ho := c6_wait_for_fc ctxMax2 0 10 0 0 ⟨0x7E8, [0x32, 0x00, 0x00]⟩ []
    (by decide) (by decide)
  have hg := c6_wait_for_fc ctxMax2 0 10 0 0 garbledFrame [] (by decide) (by decide)
  exact ⟨hw.1 (by decide), ho.2.1 (by decide), hw.2.2.1, hg.2.2.2 (by decide)⟩

/-- C8: once the abort flag is stored at time a, every wait point of the
transaction observes it and execute() returns Aborted rather than the
wait's timeout code: the check at the top of the state-machine loop, the
frame waits of WAIT_FOR_RESPONSE, WAIT_FOR_FC and
RECEIVE_CONSECUTIVE_FRAMES (stated with a provider that never returns
data, each up to its own deadline), the top of the consecutive-frame
send loop, and the separation-time pacing loop. -/
theorem c8_abort_everywhere (ctx : UdsSessionContext) (sender : CanFrame → Bool)
    (a startTime time timeout nrc bs stMin sent fuel : Nat)
    (payload : List Nat) (env : Env) (r : Reassembler) (seg : Segmenter) :
    (a ≤ startTime →
      execute ctx sender (some a) startTime payload env =
        (⟨false, .aborted, []⟩, startTime)) ∧
    (a ≤ time + timeout →
      waitResponseLoop ctx sender (some a) time timeout nrc [] =
        (⟨false, .aborted, []⟩, max a time)) ∧
    (a ≤ time + ctx.tp_config.n_bs_timeout →
      fcWaitLoop ctx (some a) time [] = .fcFailed .aborted (max a time)) ∧
    (r.status = .inProgress → a ≤ time + ctx.tp_config.n_cr_timeout →
      receiveCfLoop ctx (some a) time r [] = (⟨false, .aborted, []⟩, max a time)) ∧
    (seg.remaining.isEmpty = false → a ≤ time →
      sendCfLoop ctx sender (some a) bs stMin (fuel + 1) time sent seg =
        .cfFailed .aborted time) ∧
    (max a time < time + stMin → paceWait (some a) time stMin = (true, max a time)) := by
  refine ⟨?_, ?_, ?_, ?_, ?_, ?_⟩
  · intro h; simp [execute, abortSet, h]
  · intro h
    simp [waitResponseLoop, abortBefore, effAbort]
    omega
  · intro h
    simp [fcWaitLoop, abortBefore, effAbort]
    omega
  · intro hr h
    simp [receiveCfLoop, hr, abortBefore, effAbort]
    omega
  · intro hne h
    simp [sendCfLoop, hne, abortSet, h]
  · intro h
    have hst : stMin ≠ 0 := by omega
    simp [paceWait, hst, abortBefore, effAbort]
    omega

/-- C8 witness: c8_abort_everywhere at concrete inputs — abort stored at
time 30 before a 100 ms response wait deadline, at the top of execute, in
WAIT_FOR_FC and RECEIVE_CONSECUTIVE_FRAMES, at the send-loop top and
inside a 5 ms pacing window. -/
theorem c8_witness :
    execute ctxMax2 sendOk (some 0) 0 [0x22] [] = (⟨false, .aborted, []⟩, 0) ∧
    waitResponseLoop ctxMax2 sendOk (some 30) 0 100 0 [] =
      (⟨false, .aborted, []⟩, max 30 0) ∧
    fcWaitLoop ctxMax2 (some 30) 0 [] = .fcFailed .aborted (max 30 0) ∧
    receiveCfLoop ctxMax2 (some 30) 0 ⟨.inProgress, 20, [0x62], 1⟩ [] =
      (⟨false, .aborted, []⟩, max 30 0) ∧
    sendCfLoop ctxMax2 sendOk (some 3) 0 0 1 5 0 ⟨1, [0x01]⟩ =
      .cfFailed .aborted 5 ∧
    paceWait (some 7) 5 5 = (true, max 7 5) := by
  have h2 := c8_abort_everywhere ctxMax2 sendOk 0 0 0 100 0 0 0 0 0 [0x22] []
    Reassembler.start ⟨1, []⟩
  have h30 := c8_abort_everywhere ctxMax2 sendOk 30 0 0 100 0 0 0 0 0 [0x22] []
    ⟨.inProgress, 20, [0x62], 1⟩ ⟨1, []⟩
  have h3 := c8_abort_everywhere ctxMax2 sendOk 3 0 5 0 0 0 0 0 0 [] [] Reassembler.start
    ⟨1, [0x01]⟩
  have h7 := c8_abort_everywhere ctxMax2 sendOk 7 0 5 0 0 0 5 0 0 [] [] Reassembler.start
    ⟨1, []⟩
  exact ⟨h2.1 (by decide), h30.2.1 (by decide), h30.2.2.1 (by decide),
    h30.2.2.2.1 (by decide) (by decide), h3.2.2.2.2.1 (by decide) (by decide),
    h7.2.2.2.2.2 (by decide)⟩

/-- C3: counterexample — requestAsync rejects only when the approximate
queue size strictly exceeds REQUEST_QUEUE_SIZE (line 222), so with a
queue already holding REQUEST_QUEUE_SIZE items (here 2) the next call
still enqueues and returns Ok instead of the claimed QueueFull. -/
theorem c3_counterexample :
    requestAsync 2 ⟨true, [[1], [2]]⟩ [3] = (.ok, ⟨true, [[1], [2], [3]]⟩) ∧
    ResultCode.ok ≠ .queueFull := by decide

/-- C3 (amended): requestAsync is non-blocking with an effective bound of
REQUEST_QUEUE_SIZE + 1 undrained items: a call finding at most
REQUEST_QUEUE_SIZE items queued (service running, payload non-empty)
enqueues and returns Ok, a call finding more returns QueueFull without
enqueuing — so calls without draining enqueue through the
REQUEST_QUEUE_SIZE + 1-th call and the REQUEST_QUEUE_SIZE + 2-th returns
QueueFull (shown concretely for size 2: four back-to-back calls give Ok,
Ok, Ok, QueueFull). -/
theorem c3_amended (REQUEST_QUEUE_SIZE : Nat) (s : AsyncState) (p : List Nat)
    (hrun : s.running = true) (hp : p.isEmpty = false) :
    (s.queue.length ≤ REQUEST_QUEUE_SIZE →
      requestAsync REQUEST_QUEUE_SIZE s p = (.ok, { s with queue := s.queue ++ [p] })) ∧
    (REQUEST_QUEUE_SIZE < s.queue.length →
      requestAsync REQUEST_QUEUE_SIZE s p = (.queueFull, s)) ∧
    requestAsyncCalls 2 ⟨true, []⟩ [[1], [2], [3], [4]] =
      ([.ok, .ok, .ok, .queueFull], ⟨true, [[1], [2], [3]]⟩) := by
  refine ⟨?_, ?_, by decide⟩ <;> intro h <;>
    simp [requestAsync, hrun, hp] <;> omega

/-- C3 witness: c3_amended applied at a concrete state at the bound
(two queued items, REQUEST_QUEUE_SIZE = 2) and at one beyond it. -/
theorem c3_witness :
    requestAsync 2 ⟨true, [[1], [2]]⟩ [3] =
      (.ok, { AsyncState.mk true [[1], [2]] with queue := [[1], [2]] ++ [[3]] }) ∧
    requestAsync 2 ⟨true, [[1], [2], [3]]⟩ [4] = (.queueFull, ⟨true, [[1], [2], [3]]⟩) :=
  ⟨(c3_amended 2 ⟨true, [[1], [2]]⟩ [3] (by decide) (by decide)).1 (by decide),
   (c3_amended 2 ⟨true, [[1], [2], [3]]⟩ [4] (by decide) (by decide)).2.1 (by decide)⟩

/-- C4: counterexample — the physical worker enqueues a transaction
outcome only when its code differs from Aborted (line 334), so an
Aborted result is dropped from the response queue, contradicting the
claim that every outcome, Aborted included, is enqueued. -/
theorem c4_counterexample :
    (physicalWorkerStep ⟨.aborted, []⟩ []).1 = [] ∧
    ([] : List SvcResponse) ≠ [⟨.aborted, []⟩] := by decide

/-- C4 (amended): for every request processed by the physical async
worker, the transaction outcome — success or any failure code except
Aborted — is appended to the response queue as a normal result, an
Aborted outcome is dropped without being enqueued, and in every case the
worker loop continues rather than terminating. -/
theorem c4_amended (res : SvcResponse) (respQueue : List SvcResponse) :
    (res.result_code ≠ .aborted →
      physicalWorkerStep res respQueue = (respQueue ++ [res], true)) ∧
    (res.result_code = .aborted →
      physicalWorkerStep res respQueue = (respQueue, true)) ∧
    (physicalWorkerStep res respQueue).2 = true := by
  refine ⟨?_, ?_, ?_⟩ <;> first
    | (intro h; simp [physicalWorkerStep, h])
    | simp [physicalWorkerStep]

/-- C4 witness: c4_amended at a failed (timeout) outcome, which is
enqueued, and at an Aborted outcome, which is dropped. -/
theorem c4_witness :
    physicalWorkerStep ⟨.timeoutA, []⟩ [] = ([⟨.timeoutA, []⟩], true) ∧
    physicalWorkerStep ⟨.aborted, []⟩ [⟨.ok, [0x50]⟩] = ([⟨.ok, [0x50]⟩], true) :=
  ⟨by
    have h := (c4_amended ⟨.timeoutA, []⟩ []).1 (by decide)
    simpa using h,
   (c4_amended ⟨.aborted, []⟩ [⟨.ok, [0x50]⟩]).2.1 (by decide)⟩

/-- C7: securityAccess performs exactly the three-step sequence.  Step 1
sends 0x27, 2*level-1 and requires a response starting with 0x67 and
carrying at least one seed byte after the two-byte header — in
particular a two-byte response 0x67 subfunc yields SecurityInvalidSeed;
step 2 derives the key from the seed bytes; step 3 sends 0x27, 2*level
followed by the key and its result is returned to the caller.  Any
step's failure returns that step's error with no later request sent, and
the recorded request list shows each payload is sent exactly once (no
internal retry). -/
theorem c7_security_access (reqSync : List Nat → ResultCode × List Nat)
    (calculateKey : Nat → List Nat → ResultCode × List Nat)
    (level x : Nat) (finalResp0 : List Nat) :
    ((reqSync [0x27, (2 * level + 255) % 256]).1 ≠ .ok →
      executeSecurityAccessSequence reqSync calculateKey level finalResp0 =
        ((reqSync [0x27, (2 * level + 255) % 256]).1,
         (reqSync [0x27, (2 * level + 255) % 256]).2,
         [[0x27, (2 * level + 255) % 256]])) ∧
    (reqSync [0x27, (2 * level + 255) % 256] = (.ok, [0x67, x]) →
      executeSecurityAccessSequence reqSync calculateKey level finalResp0 =
        (.securityInvalidSeed, finalResp0, [[0x27, (2 * level + 255) % 256]])) ∧
    ((reqSync [0x27, (2 * level + 255) % 256]).1 = .ok →
      (reqSync [0x27, (2 * level + 255) % 256]).2.headD 0 ≠ 0x67 →
      executeSecurityAccessSequence reqSync calculateKey level finalResp0 =
        (.securityInvalidSeed, finalResp0, [[0x27, (2 * level + 255) % 256]])) ∧
    ((reqSync [0x27, (2 * level + 255) % 256]).1 = .ok →
      3 ≤ (reqSync [0x27, (2 * level + 255) % 256]).2.length →
      (reqSync [0x27, (2 * level + 255) % 256]).2.headD 0 = 0x67 →
      (calculateKey level ((reqSync [0x27, (2 * level + 255) % 256]).2.drop 2)).1 ≠ .ok →
      executeSecurityAccessSequence reqSync calculateKey level finalResp0 =
        ((calculateKey level ((reqSync [0x27, (2 * level + 255) % 256]).2.drop 2)).1,
         finalResp0, [[0x27, (2 * level + 255) % 256]])) ∧
    ((reqSync [0x27, (2 * level + 255) % 256]).1 = .ok →
      3 ≤ (reqSync [0x27, (2 * level + 255) % 256]).2.length →
      (reqSync [0x27, (2 * level + 255) % 256]).2.headD 0 = 0x67 →
      (calculateKey level ((reqSync [0x27, (2 * level + 255) % 256]).2.drop 2)).1 = .ok →
      executeSecurityAccessSequence reqSync calculateKey level finalResp0 =
        ((reqSync ([0x27, (2 * level) % 256] ++
            (calculateKey level ((reqSync [0x27, (2 * level + 255) % 256]).2.drop 2)).2)).1,
         (reqSync ([0x27, (2 * level) % 256] ++
            (calculateKey level ((reqSync [0x27, (2 * level + 255) % 256]).2.drop 2)).2)).2,
         [[0x27, (2 * level + 255) % 256],
          [0x27, (2 * level) % 256] ++
            (calculateKey level ((reqSync [0x27, (2 * level + 255) % 256]).2.drop 2)).2])) := by
  rcases hr : reqSync [0x27, (2 * level + 255) % 256] with ⟨c1, resp1⟩
  refine ⟨?_, ?_, ?_, ?_, ?_⟩
  · intro h1
    simp only at h1
    simp [executeSecurityAccessSequence, hr, h1]
  · intro h1
    have hc : c1 = .ok := congrArg Prod.fst h1
    have hresp : resp1 = [0x67, x] := congrArg Prod.snd h1
    subst hc
    subst hresp
    simp [executeSecurityAccessSequence, hr]
  · intro h1 h2
    simp only at h1 h2
    subst h1
    rw [List.headD_eq_head?] at h2
    simp [executeSecurityAccessSequence, hr, h2]
  · intro h1 hlen hhead h2
    simp only at h1 hlen hhead h2
    subst h1
    rw [List.headD_eq_head?] at hhead
    have hne : resp1.drop 2 ≠ [] := by
      intro hc
      have := congrArg List.length hc
      simp at this
      omega
    rcases hck : calculateKey level (resp1.drop 2) with ⟨c2, key⟩
    rw [hck] at h2
    simp only at h2
    simp [executeSecurityAccessSequence, hr, hhead, hne, hck, h2]
    omega
  · intro h1 hlen hhead h2
    simp only at h1 hlen hhead h2
    subst h1
    rw [List.headD_eq_head?] at hhead
    have hne : resp1.drop 2 ≠ [] := by
      intro hc
      have := congrArg List.length hc
      simp at this
      omega
    rcases hck : calculateKey level (resp1.drop 2) with ⟨c2, key⟩
    rw [hck] at h2
    simp only at h2
    subst h2
    simp [executeSecurityAccessSequence, hr, hhead, hne, hck]
    omega

/-- C7 witness: c7_security_access at a concrete bus — the zero-seed
response 0x67 0x05 for level 3 yields SecurityInvalidSeed after one
request, and a two-byte seed with a derived key runs exactly the two
requests and returns the key step's result. -/
theorem c7_witness :
    executeSecurityAccessSequence
      (fun p => if p = [0x27, 0x05] then (.ok, [0x67, 0x05]) else (.internalError, []))
      (fun _ s => (.ok, s)) 3 [] =
      (.securityInvalidSeed, [], [[0x27, (2 * 3 + 255) % 256]]) ∧
    executeSecurityAccessSequence
      (fun p => if p = [0x27, 0x05] then (.ok, [0x67, 0x05, 0xDE, 0xAD])
        else if p = [0x27, 0x06, 0xDE, 0xAD] then (.ok, [0x67, 0x06]) else (.internalError, []))
      (fun _ s => (.ok, s)) 3 [] =
      (.ok, [0x67, 0x06], [[0x27, (2 * 3 + 255) % 256], [0x27, (2 * 3) % 256] ++ [0xDE, 0xAD]]) := by
  constructor
  · have h := (c7_security_access
      (fun p => if p = [0x27, 0x05] then (.ok, [0x67, 0x05]) else (.internalError, []))
      (fun _ s => (.ok, s)) 3 0x05 []).2.1 (by decide)
    simpa using h
  · have h := (c7_security_access
      (fun p => if p = [0x27, 0x05] then (.ok, [0x67, 0x05, 0xDE, 0xAD])
        else if p = [0x27, 0x06, 0xDE, 0xAD] then (.ok, [0x67, 0x06]) else (.internalError, []))
      (fun _ s => (.ok, s)) 3 0 []).2.2.2.2 (by decide) (by decide) (by decide) (by decide)
    simpa using h

/-- C10: the sender closure bound into a physical Transaction refreshes
the shared last-transmit time on every send, while the sender closure
bound into a FunctionalTransaction leaves it untouched: after any
sequence of functional-broadcast sends the last-transmit time and hence
the keep-alive due test are unchanged (the sends still reach the bus),
whereas a physical send stamps the current time. -/
theorem c10_functional_sends_keepalive (s : SenderState) (fs : List CanFrame)
    (now intervalMs : Nat) (f : CanFrame) :
    (fs.foldl functionalSend s).last_tx_time_ms = s.last_tx_time_ms ∧
    (fs.foldl functionalSend s).sent = s.sent ++ fs ∧
    keepAliveDue intervalMs now (fs.foldl functionalSend s) =
      keepAliveDue intervalMs now s ∧
    (physicalSend now s f).last_tx_time_ms = now := by
  have key : ∀ (l : List CanFrame) (st : SenderState),
      (l.foldl functionalSend st).last_tx_time_ms = st.last_tx_time_ms ∧
      (l.foldl functionalSend st).sent = st.sent ++ l := by
    intro l
    induction l with
    | nil => intro st; simp
    | cons c cs ih =>
      intro st
      have h := ih (functionalSend st c)
      refine ⟨?_, ?_⟩
      · rw [List.foldl_cons, h.1]
        rfl
      · rw [List.foldl_cons, h.2]
        simp [functionalSend]
  refine ⟨(key fs s).1, (key fs s).2, ?_, rfl⟩
  unfold keepAliveDue
  rw [(key fs s).1]

theorem lockedSends_length (n : Nat) : (lockedSends n).length = n + 2 := by
  simp [lockedSends]

theorem lockedSends_drop (n k : Nat) :
    (k = 0 ∧ (lockedSends n).drop k = lockedSends n) ∨
    (1 ≤ k ∧ k ≤ n + 1 ∧ (lockedSends n).drop k =
      List.replicate (n + 1 - k) LockEv.send ++ [LockEv.unlockTx]) ∨
    (n + 2 ≤ k ∧ (lockedSends n).drop k = []) := by
  rcases k with _ | k
  · exact Or.inl ⟨rfl, rfl⟩
  rcases Nat.lt_or_ge k (n + 1) with hk | hk
  · refine Or.inr (Or.inl ⟨by omega, by omega, ?_⟩)
    have hkn : k ≤ n := by omega
    have h1 : (lockedSends n).drop (k + 1) =
        (List.replicate n LockEv.send ++ [LockEv.unlockTx]).drop k := by
      simp [lockedSends]
    rw [h1, List.drop_append_of_le_length (by simpa using hkn), List.drop_replicate]
    congr 2
    omega
  · refine Or.inr (Or.inr ⟨by omega, ?_⟩)
    have hlen : (lockedSends n).length ≤ k + 1 := by rw [lockedSends_length]; omega
    exact List.drop_eq_nil_of_le hlen

theorem lockedSends_drop_mid (n k : Nat) (h1 : 1 ≤ k) (h2 : k ≤ n + 1) :
    (lockedSends n).drop k =
      List.replicate (n + 1 - k) LockEv.send ++ [LockEv.unlockTx] := by
  rcases lockedSends_drop n k with ⟨h0, _⟩ | ⟨_, _, hmid⟩ | ⟨hge, _⟩
  · omega
  · exact hmid
  · omega

theorem lockedSends_cons_lock (n k : Nat) (es : List LockEv)
    (hk : (lockedSends n).drop k = .lockTx :: es) :
    k = 0 ∧ es = List.replicate n LockEv.send ++ [LockEv.unlockTx] := by
  rcases lockedSends_drop n k with ⟨h0, hfull⟩ | ⟨_, _, hmid⟩ | ⟨_, hnil⟩
  · subst h0
    rw [hk] at hfull
    rw [lockedSends] at hfull
    injection hfull with _ h2
    exact ⟨rfl, h2⟩
  · rw [hk] at hmid
    rcases hj : n + 1 - k with _ | j <;> rw [hj] at hmid <;>
      simp [List.replicate_succ] at hmid
  · rw [hk] at hnil
    simp at hnil

theorem lockedSends_cons_send (n k : Nat) (es : List LockEv)
    (hk : (lockedSends n).drop k = .send :: es) :
    1 ≤ k ∧ k ≤ n ∧ es = List.replicate (n - k) LockEv.send ++ [LockEv.unlockTx] := by
  rcases lockedSends_drop n k with ⟨h0, hfull⟩ | ⟨hk1, hk2, hmid⟩ | ⟨_, hnil⟩
  · subst h0
    rw [hk] at hfull
    rw [lockedSends] at hfull
    injection hfull with h1 _
    exact absurd h1 (by simp)
  · rw [hk] at hmid
    rcases hj : n + 1 - k with _ | j <;> rw [hj] at hmid
    · simp at hmid
    · rw [List.replicate_succ] at hmid
      injection hmid with _ h2
      refine ⟨hk1, by omega, ?_⟩
      rw [h2]
      congr 2
      omega
  · rw [hk] at hnil
    simp at hnil

theorem lockedSends_cons_unlock (n k : Nat) (es : List LockEv)
    (hk : (lockedSends n).drop k = .unlockTx :: es) :
    k = n + 1 ∧ es = [] := by
  rcases lockedSends_drop n k with ⟨h0, hfull⟩ | ⟨hk1, hk2, hmid⟩ | ⟨_, hnil⟩
  · subst h0
    rw [hk] at hfull
    rw [lockedSends] at hfull
    injection hfull with h1 _
    exact absurd h1 (by simp)
  · rw [hk] at hmid
    rcases hj : n + 1 - k with _ | j <;> rw [hj] at hmid
    · simp at hmid
      exact ⟨by omega, hmid⟩
    · rw [List.replicate_succ] at hmid
      injection hmid with h1 _
      exact absurd h1 (by simp)
  · rw [hk] at hnil
    simp at hnil

theorem lockedSends_mid_shape (n j : Nat) (hj : j ≤ n) :
    List.replicate j LockEv.send ++ [LockEv.unlockTx] ≠ lockedSends n ∧
    List.replicate j LockEv.send ++ [LockEv.unlockTx] ≠ ([] : List LockEv) := by
  constructor
  · intro hc
    have hlen := congrArg List.length hc
    simp [lockedSends] at hlen
    omega
  · simp

theorem sendsOf_cons_send (t : BusThread) (tr : List (BusThread × LockEv)) :
    sendsOf ((t, LockEv.send) :: tr) = t :: sendsOf tr := by
  simp [sendsOf]

theorem sendsOf_cons_lock (t : BusThread) (tr : List (BusThread × LockEv)) :
    sendsOf ((t, LockEv.lockTx) :: tr) = sendsOf tr := by
  simp [sendsOf]

theorem sendsOf_cons_unlock (t : BusThread) (tr : List (BusThread × LockEv)) :
    sendsOf ((t, LockEv.unlockTx) :: tr) = sendsOf tr := by
  simp [sendsOf]

theorem sendsDisjoint_nil : SendsDisjoint [] := by
  intro i j k a u _ _ hi _ _
  simp at hi

theorem sendsDisjoint_cons (t : BusThread) (l : List BusThread) (m : Nat)
    (rest : List BusThread) (hl : l = List.replicate m t ++ rest)
    (hrest : t ∉ rest) (hd : SendsDisjoint l) : SendsDisjoint (t :: l) := by
  intro i j k a u hij hjk hi hk hj
  rcases i with _ | i
  · rw [List.getElem?_cons_zero] at hi
    injection hi with hi
    subst hi
    rcases j with _ | j
    · omega
    rcases k with _ | k
    · omega
    rw [List.getElem?_cons_succ] at hk hj
    have hkm : k < m := by
      by_contra hge
      push_neg at hge
      rw [hl, List.getElem?_append_right (by simpa using hge)] at hk
      simp at hk
      exact hrest (List.getElem?_mem hk)
    have hjm : j < m := by omega
    rw [hl, List.getElem?_append, if_pos (by simpa using hjm),
      List.getElem?_replicate, if_pos hjm] at hj
    injection hj with hj
    exact hj.symm
  · rcases j with _ | j
    · omega
    rcases k with _ | k
    · omega
    rw [List.getElem?_cons_succ] at hi hj hk
    exact hd i j k a u (by omega) (by omega) hi hk hj

/-- Inductive invariant of the mutex interleaving model: every thread's
remaining program is a suffix of its program; a thread is recorded as the
mutex holder exactly when it is inside its critical section; a thread
that has not yet locked has not sent; while a thread holds the mutex,
the newest sends of the trace are its own; and send spans never
interleave. -/
structure BusInv (nSync nPhys : Nat) (s : BusState) : Prop where
  suffix : ∀ t, ∃ k, s.rem t = (busProg nSync nPhys t).drop k
  holderIff : ∀ t, s.holder = some t ↔
    (s.rem t ≠ busProg nSync nPhys t ∧ s.rem t ≠ [])
  noSendBeforeLock : ∀ t, s.rem t = busProg nSync nPhys t → t ∉ sendsOf s.trace
  holderBlock : ∀ t, s.holder = some t → ∃ m rest,
    sendsOf s.trace = List.replicate m t ++ rest ∧ t ∉ rest
  disj : SendsDisjoint (sendsOf s.trace)

theorem busInv_init (nSync nPhys : Nat) : BusInv nSync nPhys (busInit nSync nPhys) := by
  refine ⟨fun t => ⟨0, rfl⟩, fun t => ?_, fun t _ => ?_, fun t h => ?_, sendsDisjoint_nil⟩
  · constructor
    · intro hc
      simp [busInit] at hc
    · rintro ⟨hne, _⟩
      exact absurd rfl hne
  · simp [busInit, sendsOf]
  · simp [busInit] at h

theorem busInv_step (nSync nPhys : Nat) (s : BusState) (t : BusThread)
    (h : BusInv nSync nPhys s) : BusInv nSync nPhys (busStep s t) := by
  obtain ⟨n, hprog⟩ : ∃ n, busProg nSync nPhys t = lockedSends n := by
    cases t <;> exact ⟨_, rfl⟩
  rcases hrem : s.rem t with _ | ⟨e, es⟩
  · simpa [busStep, hrem] using h
  obtain ⟨k, hk⟩ := h.suffix t
  rw [hrem, hprog] at hk
  cases e with
  | lockTx =>
    obtain ⟨hk0, hes⟩ := lockedSends_cons_lock n k es hk.symm
    have hfull : s.rem t = busProg nSync nPhys t := by
      rw [hrem, hprog]
      subst hk0
      simpa using hk
    by_cases hh : s.holder = none
    · have hs' : busStep s t =
          ⟨some t, Function.update s.rem t es, (t, .lockTx) :: s.trace⟩ := by
        simp [busStep, hrem, hh]
      rw [hs']
      refine ⟨?_, ?_, ?_, ?_, ?_⟩
      · intro u
        by_cases hu : u = t
        · subst hu
          refine ⟨1, ?_⟩
          simp only [Function.update_apply, if_pos rfl]
          rw [hprog, hes, lockedSends_drop_mid n 1 (by omega) (by omega)]
          congr 2
        · obtain ⟨k', hk'⟩ := h.suffix u
          exact ⟨k', by simpa [Function.update_apply, hu] using hk'⟩
      · intro u
        constructor
        · intro huh
          simp only [Option.some.injEq] at huh
          subst huh
          simp only [Function.update_apply, if_pos rfl]
          rw [hes, hprog]
          exact lockedSends_mid_shape n n (le_refl n)
        · intro hmid
          by_cases hu : u = t
          · simp [hu]
          · exfalso
            simp only [Function.update_apply, if_neg hu] at hmid
            have := (h.holderIff u).mpr hmid
            rw [hh] at this
            simp at this
      · intro u hu
        by_cases hut : u = t
        · subst hut
          exfalso
          simp only [Function.update_apply, if_pos rfl] at hu
          rw [hes, hprog] at hu
          exact (lockedSends_mid_shape n n (le_refl n)).1 hu
        · simp only [Function.update_apply, if_neg hut] at hu
          rw [sendsOf_cons_lock]
          exact h.noSendBeforeLock u hu
      · intro u hu
        simp only [Option.some.injEq] at hu
        subst hu
        refine ⟨0, sendsOf s.trace, ?_, ?_⟩
        · rw [sendsOf_cons_lock]
          simp
        · exact h.noSendBeforeLock t hfull
      · rw [sendsOf_cons_lock]
        exact h.disj
    · simpa [busStep, hrem, hh] using h
  | send =>
    obtain ⟨hk1, hkn, hes⟩ := lockedSends_cons_send n k es hk.symm
    have hmidt : s.rem t ≠ busProg nSync nPhys t ∧ s.rem t ≠ [] := by
      rw [hrem, hprog]
      have hsh := lockedSends_mid_shape n (n + 1 - k) (by omega)
      have hform : (LockEv.send :: es : List LockEv) =
          List.replicate (n + 1 - k) LockEv.send ++ [LockEv.unlockTx] := by
        rw [hes]
        have : n + 1 - k = (n - k) + 1 := by omega
        rw [this, List.replicate_succ]
        simp
      rw [hform]
      exact hsh
    have hold : s.holder = some t := (h.holderIff t).mpr hmidt
    obtain ⟨m, restBlock, hblock, hnotin⟩ := h.holderBlock t hold
    have hs' : busStep s t =
        ⟨s.holder, Function.update s.rem t es, (t, .send) :: s.trace⟩ := by
      simp [busStep, hrem]
    rw [hs']
    have hesdrop : es = (lockedSends n).drop (k + 1) := by
      rw [lockedSends_drop_mid n (k + 1) (by omega) (by omega), hes]
      congr 2
      omega
    have hesmid : es ≠ lockedSends n ∧ es ≠ ([] : List LockEv) := by
      rw [hes]
      exact lockedSends_mid_shape n (n - k) (by omega)
    refine ⟨?_, ?_, ?_, ?_, ?_⟩
    · intro u
      by_cases hu : u = t
      · subst hu
        refine ⟨k + 1, ?_⟩
        simp only [Function.update_apply, if_pos rfl]
        rw [hprog]
        exact hesdrop
      · obtain ⟨k', hk'⟩ := h.suffix u
        exact ⟨k', by simpa [Function.update_apply, hu] using hk'⟩
    · intro u
      constructor
      · intro huh
        simp only at huh
        rw [hold] at huh
        simp only [Option.some.injEq] at huh
        subst huh
        simp only [Function.update_apply, if_pos rfl]
        rw [hprog]
        exact hesmid
      · intro hmid
        by_cases hu : u = t
        · subst hu
          exact hold
        · simp only [Function.update_apply, if_neg hu] at hmid
          exact (h.holderIff u).mpr hmid
    · intro u hu
      by_cases hut : u = t
      · subst hut
        exfalso
        simp only [Function.update_apply, if_pos rfl] at hu
        rw [hprog] at hu
        exact hesmid.1 hu
      · simp only [Function.update_apply, if_neg hut] at hu
        rw [sendsOf_cons_send]
        have hold2 := h.noSendBeforeLock u hu
        intro hmem
        rcases List.mem_cons.mp hmem with hc | hc
        · exact hut hc
        · exact hold2 hc
    · intro u hu
      simp only at hu
      rw [hold] at hu
      simp only [Option.some.injEq] at hu
      subst hu
      refine ⟨m + 1, restBlock, ?_, hnotin⟩
      rw [sendsOf_cons_send, hblock, List.replicate_succ]
      simp
    · rw [sendsOf_cons_send]
      exact sendsDisjoint_cons t (sendsOf s.trace) m restBlock hblock hnotin h.disj
  | unlockTx =>
    obtain ⟨hkn, hes⟩ := lockedSends_cons_unlock n k es hk.symm
    have hmidt : s.rem t ≠ busProg nSync nPhys t ∧ s.rem t ≠ [] := by
      rw [hrem, hprog, hes]
      have hsh := lockedSends_mid_shape n 0 (by omega)
      simpa using hsh
    have hold : s.holder = some t := (h.holderIff t).mpr hmidt
    have hs' : busStep s t =
        ⟨none, Function.update s.rem t es, (t, .unlockTx) :: s.trace⟩ := by
      simp [busStep, hrem, hold]
    rw [hs']
    refine ⟨?_, ?_, ?_, ?_, ?_⟩
    · intro u
      by_cases hu : u = t
      · subst hu
        refine ⟨n + 2, ?_⟩
        simp only [Function.update_apply, if_pos rfl]
        rw [hprog, hes]
        exact (List.drop_eq_nil_of_le (by rw [lockedSends_length])).symm
      · obtain ⟨k', hk'⟩ := h.suffix u
        exact ⟨k', by simpa [Function.update_apply, hu] using hk'⟩
    · intro u
      constructor
      · intro huh
        simp at huh
      · intro hmid
        exfalso
        by_cases hu : u = t
        · subst hu
          simp only [Function.update_apply, if_pos rfl] at hmid
          rw [hes] at hmid
          exact hmid.2 rfl
        · simp only [Function.update_apply, if_neg hu] at hmid
          have huh := (h.holderIff u).mpr hmid
          rw [hold] at huh
          simp only [Option.some.injEq] at huh
          exact hu huh.symm
    · intro u hu
      by_cases hut : u = t
      · subst hut
        exfalso
        simp only [Function.update_apply, if_pos rfl] at hu
        rw [hes, hprog] at hu
        have hlen := congrArg List.length hu
        rw [lockedSends_length] at hlen
        simp at hlen
      · simp only [Function.update_apply, if_neg hut] at hu
        rw [sendsOf_cons_unlock]
        exact h.noSendBeforeLock u hu
    · intro u hu
      simp at hu
    · rw [sendsOf_cons_unlock]
      exact h.disj

theorem busInv_run (nSync nPhys : Nat) (s : BusState)
    (h : BusInv nSync nPhys s) (sched : List BusThread) :
    BusInv nSync nPhys (busRun s sched) := by
  induction sched generalizing s with
  | nil => simpa [busRun] using h
  | cons a l ih =>
    have : busRun s (a :: l) = busRun (busStep s a) l := by
      simp [busRun]
    rw [this]
    exact ih _ (busInv_step nSync nPhys s a h)

/-- C9: under every interleaving of a synchronous caller, the physical
async worker and the keep-alive sender — each of which performs its bus
sends while holding m_transaction_mutex, as the source does in
executeTransaction and keepAliveThreadFunc — at most one of the three is
inside its critical section in any reachable state (at most one physical
Transaction executes at a time), and the send spans of different threads
never interleave: a due keep-alive Tester-Present send cannot fall
between two frames of an in-progress diagnostic exchange. -/
theorem c9_transaction_mutex (nSync nPhys : Nat) (sched : List BusThread) :
    (∀ t u : BusThread,
      inCritSection nSync nPhys (busRun (busInit nSync nPhys) sched) t →
      inCritSection nSync nPhys (busRun (busInit nSync nPhys) sched) u → t = u) ∧
    SendsDisjoint (sendsOf (busRun (busInit nSync nPhys) sched).trace) := by
  have hinv := busInv_run nSync nPhys (busInit nSync nPhys) (busInv_init nSync nPhys) sched
  refine ⟨?_, hinv.disj⟩
  intro t u ht hu
  have h1 := (hinv.holderIff t).mpr ht
  have h2 := (hinv.holderIff u).mpr hu
  rw [h1] at h2
  simpa using h2

/-- C9 witness: c9_transaction_mutex at a concrete schedule in which the
keep-alive thread becomes due while the synchronous caller holds the
mutex for a three-frame exchange — the keep-alive send is delayed past
the whole exchange, and the exclusivity clause is instantiated mid
critical section. -/
theorem c9_witness :
    BusThread.syncCaller = BusThread.syncCaller ∧
    BusThread.syncCaller = BusThread.syncCaller :=
  ⟨(c9_transaction_mutex 3 0 [.syncCaller]).1 .syncCaller .syncCaller
      (by unfold inCritSection; exact ⟨by decide, by decide⟩)
      (by unfold inCritSection; exact ⟨by decide, by decide⟩),
   (c9_transaction_mutex 3 0 [.syncCaller, .keepAlive, .syncCaller, .syncCaller,
      .syncCaller, .syncCaller, .keepAlive, .keepAlive, .keepAlive]).2 1 2 3
      .syncCaller .syncCaller (by decide) (by decide) (by decide) (by decide) (by decide)⟩

end VciUds
